import Mathlib

/-!
# Shallow embedding of the `ai_wargame` game engine

This file embeds the core game engine of `src/ai_wargame.py` in Lean 4:
the unit model (damage/repair tables, health clamping), the coordinate and
move types, the board and game state, move legality classification, action
application (move / attack / repair / self-destruct), termination detection,
the static evaluation functions, and the minimax / alpha-beta search.

Python conventions are translated as follows:
* machine-level mutation becomes explicit state passing (every method that
  mutates `self` returns the updated `Game`);
* code paths that would raise in Python (attribute access on `None`,
  comparisons between numbers and non-numbers, use of a name before
  assignment) return `Option`/`Except` failures;
* Python `None` returns of functions typed `-> bool` are modelled with
  `Option Bool`, and call sites that rely on Python truthiness go through
  `isTruthy`;
* wall-clock time checks inside the search (`time() - start_time + ...`)
  are modelled as never firing: the claims under study are about the
  fixed-depth behaviour of the search, and real time is outside the
  embedding. File logging (`dump_to_output_file`), the broker HTTP client,
  command-line parsing and the `Stats` diagnostics counters are I/O or
  diagnostics only and do not affect any value the claims mention; they are
  omitted.
-/

namespace AiWargame

/-- Every unit type (`class UnitType(Enum)`). -/
inductive UnitType
  | AI
  | Tech
  | Virus
  | Program
  | Firewall
deriving DecidableEq, Repr

/-- The enum ordinal of a unit type (`UnitType.value` in Python), used to
index the damage and repair tables. -/
def UnitType.value : UnitType → Nat
  | .AI => 0
  | .Tech => 1
  | .Virus => 2
  | .Program => 3
  | .Firewall => 4

/-- The 2 players (`class Player(Enum)`). -/
inductive Player
  | Attacker
  | Defender
deriving DecidableEq, Repr

/-- `Player.next`: the next (other) player. -/
def Player.next : Player → Player
  | .Attacker => .Defender
  | .Defender => .Attacker

/-- Every direction a unit can move (`class Direction(Enum)`). -/
inductive Direction
  | Up
  | Right
  | Down
  | Left
deriving DecidableEq, Repr

/-- Every action a unit can take (`class ActionType(Enum)`). -/
inductive ActionType
  | SelfDestruct
  | Move
  | Attack
  | Repair
deriving DecidableEq, Repr

/-- A unit on the board (`@dataclass class Unit`). -/
structure Unit where
  player : Player := .Attacker
  type : UnitType := .Program
  health : Int := 9
deriving DecidableEq, Repr

/-- `Unit.damage_table`: class variable damage table, indexed by
(attacker type ordinal, defender type ordinal). -/
def damage_table : List (List Int) :=
  [[3,3,3,3,1],
   [1,1,6,1,1],
   [9,6,1,6,1],
   [3,3,3,3,1],
   [1,1,1,1,1]]

/-- `Unit.repair_table`: class variable repair table, indexed by
(healer type ordinal, target type ordinal). -/
def repair_table : List (List Int) :=
  [[0,1,1,0,0],
   [3,0,0,3,3],
   [0,0,0,0,0],
   [0,0,0,0,0],
   [0,0,0,0,0]]

/-- `Unit.is_alive`: are we alive? (`health > 0`). -/
def Unit.is_alive (u : Unit) : Bool :=
  decide (0 < u.health)

/-- `Unit.mod_health`: modify this unit's health by a delta amount, clamping
the result into `[0, 9]`. -/
def Unit.mod_health (u : Unit) (health_delta : Int) : Unit :=
  let h := u.health + health_delta
  if h < 0 then { u with health := 0 }
  else if h > 9 then { u with health := 9 }
  else { u with health := h }

/-- `Unit.has_full_health`. -/
def Unit.has_full_health (u : Unit) : Bool :=
  decide (u.health = 9)

/-- `Unit.damage_amount`: table damage of `u` against `target`, capped so it
never exceeds the target's current health. -/
def Unit.damage_amount (u : Unit) (target : Unit) : Int :=
  let amount := (damage_table.getD u.type.value []).getD target.type.value 0
  if target.health - amount < 0 then target.health else amount

/-- `Unit.repair_amount`: table repair of `u` on `target`, capped so the
target's health never exceeds 9. -/
def Unit.repair_amount (u : Unit) (target : Unit) : Int :=
  let amount := (repair_table.getD u.type.value []).getD target.type.value 0
  if target.health + amount > 9 then 9 - target.health else amount

/-- `Unit.is_valid_movement`: whether `direction` is a legal movement
direction for this unit when moved by `player`. The Python function returns
`True`, `False`, or falls through and implicitly returns `None` (for an
Attacker Tech or a Defender Virus); the implicit `None` is modelled as
`none`. The `direction` argument is an `Option` because the Python caller
can pass the `None` produced by `get_direction`. -/
def Unit.is_valid_movement (u : Unit) (player : Player) (direction : Option Direction) :
    Option Bool :=
  if player = Player.Attacker then
    if u.type = UnitType.AI ∨ u.type = UnitType.Program ∨ u.type = UnitType.Firewall then
      if direction = some Direction.Up ∨ direction = some Direction.Left then some true
      else some false
    else if u.type = UnitType.Virus then some true
    else none
  else
    if u.type = UnitType.AI ∨ u.type = UnitType.Program ∨ u.type = UnitType.Firewall then
      if direction = some Direction.Down ∨ direction = some Direction.Right then some true
      else some false
    else if u.type = UnitType.Tech then some true
    else none

/-- Python truthiness of a `bool | None` value: `None` is falsy. -/
def isTruthy : Option Bool → Bool
  | some b => b
  | none => false

/-- A game cell coordinate (`@dataclass class Coord`), row and column. -/
structure Coord where
  row : Int := 0
  col : Int := 0
deriving DecidableEq, Repr

/-- The list `[lo, lo+1, ..., hi-1]`, as Python's `range(lo, hi)`. -/
def intRange (lo hi : Int) : List Int :=
  (List.range (hi - lo).toNat).map (fun i => lo + Int.ofNat i)

/-- `Coord.iter_range`: the Coords inside a square of radius `dist` centered
on this Coord, in row-major order. -/
def Coord.iter_range (c : Coord) (dist : Int) : List Coord :=
  (intRange (c.row - dist) (c.row + 1 + dist)).flatMap
    (fun row => (intRange (c.col - dist) (c.col + 1 + dist)).map
      (fun col => Coord.mk row col))

/-- `Coord.iter_adjacent`: the four orthogonally adjacent Coords, in the
source's order (up, left, down, right). -/
def Coord.iter_adjacent (c : Coord) : List Coord :=
  [Coord.mk (c.row - 1) c.col,
   Coord.mk c.row (c.col - 1),
   Coord.mk (c.row + 1) c.col,
   Coord.mk c.row (c.col + 1)]

/-- `Coord.equals`. -/
def Coord.equals (c target : Coord) : Bool :=
  decide (c.row = target.row ∧ c.col = target.col)

/-- A game move or rectangular area (`@dataclass class CoordPair`). -/
structure CoordPair where
  src : Coord := {}
  dst : Coord := {}
deriving DecidableEq, Repr

/-- `CoordPair.iter_rectangle`: cells of the rectangular area, row-major. -/
def CoordPair.iter_rectangle (p : CoordPair) : List Coord :=
  (intRange p.src.row (p.dst.row + 1)).flatMap
    (fun row => (intRange p.src.col (p.dst.col + 1)).map
      (fun col => Coord.mk row col))

/-- `CoordPair.is_adjacent`: is `dst` in the 4-neighborhood of `src`? -/
def CoordPair.is_adjacent (p : CoordPair) : Bool :=
  p.src.iter_adjacent.any
    (fun adj => decide (adj.col = p.dst.col ∧ adj.row = p.dst.row))

/-- `CoordPair.are_coords_equal`. -/
def CoordPair.are_coords_equal (p : CoordPair) : Bool :=
  p.src.equals p.dst

/-- `CoordPair.get_direction`: the direction of the move, or `none`
(Python's implicit `None` fall-through) when no guard matches. -/
def CoordPair.get_direction (p : CoordPair) : Option Direction :=
  if p.src.row < p.dst.row ∧ p.src.col = p.dst.col then some Direction.Down
  else if p.dst.row < p.src.row ∧ p.src.col = p.dst.col then some Direction.Up
  else if p.src.row = p.dst.row ∧ p.src.col < p.dst.col then some Direction.Right
  else if p.src.row = p.dst.row ∧ p.dst.col < p.src.col then some Direction.Left
  else none

/-- `CoordPair.from_dim`: the full-board rectangle for a `dim`-sized board. -/
def CoordPair.from_dim (dim : Int) : CoordPair :=
  CoordPair.mk (Coord.mk 0 0) (Coord.mk (dim - 1) (dim - 1))

/-- The game options (`@dataclass class Options`). `game_type`, `broker`
and the wall-clock budget `max_time` are driver/I-O configuration with no
effect on the embedded state transitions and are omitted. -/
structure Options where
  dim : Int := 5
  max_depth : Option Int := some 4
  min_depth : Option Int := some 2
  alpha_beta : Bool := true
  max_turns : Option Int := some 100
  randomize_moves : Bool := true
  heuristic : Option String := none
deriving DecidableEq, Repr

/-- The game state (`@dataclass class Game`). The board is a `dim × dim`
grid of optional units, row-major, exactly as the Python
`list[list[Unit | None]]`. `stats`, `file_name` and `skip_logs` are
logging/diagnostics only and are omitted. -/
@[ext]
structure Game where
  board : List (List (Option Unit)) := []
  next_player : Player := .Attacker
  turns_played : Int := 0
  options : Options := {}
  attacker_has_ai : Bool := true
  defender_has_ai : Bool := true
deriving DecidableEq, Repr

/-- `Game.is_valid_coord`: is a Coord inside the board dimensions? -/
def Game.is_valid_coord (g : Game) (coord : Coord) : Bool :=
  decide (0 ≤ coord.row ∧ coord.row < g.options.dim ∧
          0 ≤ coord.col ∧ coord.col < g.options.dim)

/-- `Game.get`: contents of a board cell, `none` for an invalid Coord. -/
def Game.get (g : Game) (coord : Coord) : Option Unit :=
  if g.is_valid_coord coord then
    (g.board.getD coord.row.toNat []).getD coord.col.toNat none
  else none

/-- `Game.set`: set the contents of a board cell; no-op for an invalid
Coord, exactly as in the source. -/
def Game.set (g : Game) (coord : Coord) (unit : Option Unit) : Game :=
  if g.is_valid_coord coord then
    let newRow := (g.board.getD coord.row.toNat []).set coord.col.toNat unit
    { g with board := g.board.set coord.row.toNat newRow }
  else g

/-- Well-formedness of the board representation: the board produced by
`__post_init__` is a `dim × dim` grid, and every operation preserves this
shape. -/
def Game.wf (g : Game) : Bool :=
  decide (g.board.length = g.options.dim.toNat) &&
    g.board.all (fun row => decide (row.length = g.options.dim.toNat))

/-- `Game.remove_dead`: remove the unit at Coord if it is dead, flipping the
corresponding `has_ai` flag when the removed unit is a Command (AI) unit. -/
def Game.remove_dead (g : Game) (coord : Coord) : Game :=
  match g.get coord with
  | none => g
  | some u =>
    if u.is_alive then g
    else
      let g' := g.set coord none
      if u.type = UnitType.AI then
        if u.player = Player.Attacker then { g' with attacker_has_ai := false }
        else { g' with defender_has_ai := false }
      else g'

/-- `Game.mod_health`: modify the health of the unit at Coord (if any) and
remove it in the same step if that drops it to 0. -/
def Game.mod_health (g : Game) (coord : Coord) (health_delta : Int) : Game :=
  match g.get coord with
  | none => g
  | some target => (g.set coord (some (target.mod_health health_delta))).remove_dead coord

/-- `Game.has_winner`: termination check. The turn limit is checked first
(`max_turns is not None and turns_played >= max_turns`), then the two
Command-unit survival flags. -/
def Game.has_winner (g : Game) : Option Player :=
  if (match g.options.max_turns with
      | some m => decide (m ≤ g.turns_played)
      | none => false) then
    some Player.Defender
  else if g.attacker_has_ai then
    if g.defender_has_ai then none
    else some Player.Attacker
  else some Player.Defender

/-- `Game.is_finished`. -/
def Game.is_finished (g : Game) : Bool :=
  g.has_winner.isSome

/-- `Game.next_turn`: flip the active player and increment the counter. -/
def Game.next_turn (g : Game) : Game :=
  { g with next_player := g.next_player.next, turns_played := g.turns_played + 1 }

/-- `Game.get_all_units`: all `(coord, unit)` pairs on the board, in
row-major board order. -/
def Game.get_all_units (g : Game) : List (Coord × Unit) :=
  (CoordPair.from_dim g.options.dim).iter_rectangle.filterMap
    (fun coord => (g.get coord).map (fun u => (coord, u)))

/-- `Game.player_units`: all `(coord, unit)` pairs owned by `player`. -/
def Game.player_units (g : Game) (player : Player) : List (Coord × Unit) :=
  (CoordPair.from_dim g.options.dim).iter_rectangle.filterMap
    (fun coord => match g.get coord with
      | some u => if u.player = player then some (coord, u) else none
      | none => none)

/-- `Game.calculate_heuristic`: the static evaluator selected by name.
For a configured heuristic other than `"e0"`, `"e1"`, `"e2"` the Python
function falls through and implicitly returns `None`, modelled as `none`. -/
def Game.calculate_heuristic (g : Game) : Option Int :=
  if g.options.heuristic = some "e0" then
    some (g.get_all_units.foldl
      (fun score cu =>
        let unit := cu.2
        let score := if unit.player = Player.Attacker then
            (if unit.type = UnitType.AI then score + 9999 else score + 3)
          else score
        if unit.player = Player.Defender then
          (if unit.type = UnitType.AI then score - 9999 else score - 3)
        else score) 0)
  else if g.options.heuristic = some "e1" then
    some 0
  else if g.options.heuristic = some "e2" then
    some (g.get_all_units.foldl
      (fun score cu =>
        let unit := cu.2
        let score := if unit.player = Player.Attacker then
            (if unit.type = UnitType.AI then score + 1000 * unit.health
             else if unit.type = UnitType.Virus then score + 30 * unit.health
             else score + 10 * unit.health)
          else score
        if unit.player = Player.Defender then
          (if unit.type = UnitType.AI then score - 1000 * unit.health
           else if unit.type = UnitType.Tech then score - 30 * unit.health
           else score - 10 * unit.health)
        else score) 0)
  else none

/-- `Game.perform_self_distruct`: damage every cell of the 3×3 square
around `src` (skipping `src` itself) by 2, then delete the acting unit by
reducing its own health to 0. In Python, `src_unit.health` raises
`AttributeError` when the cell is empty; that failure is the `none` case. -/
def Game.perform_self_distruct (g : Game) (src : Coord) : Option Game :=
  let g1 := (src.iter_range 1).foldl
    (fun acc dst => if src.equals dst then acc else acc.mod_health dst (-2)) g
  match g1.get src with
  | none => none
  | some src_unit => some (g1.mod_health src (-src_unit.health))

/-- `Game.perform_fight`: combat is bidirectional and damage is dealt even
if a unit dies, so both damage values are extracted before either health
modification is applied. `none` models the `AttributeError` Python raises
when either cell is empty. -/
def Game.perform_fight (g : Game) (coords : CoordPair) : Option Game :=
  match g.get coords.src, g.get coords.dst with
  | some src_unit, some dst_unit =>
    let damage_to_dst := src_unit.damage_amount dst_unit
    let damage_to_src := dst_unit.damage_amount src_unit
    some ((g.mod_health coords.src (-damage_to_src)).mod_health coords.dst (-damage_to_dst))
  | _, _ => none

/-- A variant of `Game.perform_fight` that applies the two health
modifications in the opposite internal order (destination first), used to
state that the outcome is order-independent. -/
def Game.perform_fight_swapped (g : Game) (coords : CoordPair) : Option Game :=
  match g.get coords.src, g.get coords.dst with
  | some src_unit, some dst_unit =>
    let damage_to_dst := src_unit.damage_amount dst_unit
    let damage_to_src := dst_unit.damage_amount src_unit
    some ((g.mod_health coords.dst (-damage_to_dst)).mod_health coords.src (-damage_to_src))
  | _, _ => none

/-- `Game.perform_repair`. `none` models the `AttributeError` on an empty
source or destination cell. -/
def Game.perform_repair (g : Game) (coords : CoordPair) : Option Game :=
  match g.get coords.src, g.get coords.dst with
  | some src_unit, some dst_unit =>
    some (g.mod_health coords.dst (src_unit.repair_amount dst_unit))
  | _, _ => none

/-- `Game.is_repair_zero`. -/
def Game.is_repair_zero (src_unit dst_unit : Unit) : Bool :=
  decide (src_unit.repair_amount dst_unit ≤ 0)

/-- `Game.is_engaged_in_combat`: a unit is engaged if at least one unit of
the enemy of the player to move is adjacent to `src`. -/
def Game.is_engaged_in_combat (g : Game) (src : Coord) : Bool :=
  let enemy := if g.next_player = Player.Attacker then Player.Defender else Player.Attacker
  src.iter_adjacent.any (fun adj =>
    match g.get adj with
    | some dst_unit => decide (dst_unit.player = enemy)
    | none => false)

/-- `Game.is_movement_direction_valid`: the raw `bool | None` value of
`unit.is_valid_movement(next_player, get_direction())`; the caller applies
Python truthiness. -/
def Game.is_movement_direction_valid (g : Game) (unit : Unit) (coords : CoordPair) :
    Option Bool :=
  unit.is_valid_movement g.next_player coords.get_direction

/-- `Game.is_valid_move`: classify a proposed `(src, dst)` pair, returning
the `(bool, ActionType | None)` pair of the source. -/
def Game.is_valid_move (g : Game) (coords : CoordPair) : Bool × Option ActionType :=
  if ¬ (g.is_valid_coord coords.src = true) ∨ ¬ (g.is_valid_coord coords.dst = true) then
    (false, none)
  else
    match g.get coords.src with
    | none => (false, none)
    | some src_unit =>
      if src_unit.player ≠ g.next_player then (false, none)
      else if coords.are_coords_equal then (true, some ActionType.SelfDestruct)
      else if ¬ (coords.is_adjacent = true) then (false, none)
      else
        match g.get coords.dst with
        | none =>
          let engaged := g.is_engaged_in_combat coords.src
          if engaged ∧ src_unit.type ≠ UnitType.Tech ∧ src_unit.type ≠ UnitType.Virus then
            (false, none)
          else if ¬ (isTruthy (g.is_movement_direction_valid src_unit coords) = true) then
            (false, none)
          else (true, some ActionType.Move)
        | some dst_unit =>
          if dst_unit.player = g.next_player then
            if (src_unit.type = UnitType.Tech ∨ src_unit.type = UnitType.AI) ∧
                ¬ (Game.is_repair_zero src_unit dst_unit = true) ∧
                ¬ (dst_unit.has_full_health = true) then
              (true, some ActionType.Repair)
            else (false, none)
          else (true, some ActionType.Attack)

/-- `Game.do_move_action`: perform the specified action without
re-validating it. A Move relocates the unit and clears the source cell;
the other actions dispatch to the corresponding `perform_*`. -/
def Game.do_move_action (g : Game) (coords : CoordPair) (action_type : ActionType) :
    Option Game :=
  match action_type with
  | .SelfDestruct => g.perform_self_distruct coords.src
  | .Move => some ((g.set coords.dst (g.get coords.src)).set coords.src none)
  | .Attack => g.perform_fight coords
  | .Repair => g.perform_repair coords

/-- `Game.perform_move`: validate and perform a move. Returns the updated
game and the action type when the move is valid. -/
def Game.perform_move (g : Game) (coords : CoordPair) : Option (Game × ActionType) :=
  match g.is_valid_move coords with
  | (true, some action_type) =>
    (g.do_move_action coords action_type).map (fun g' => (g', action_type))
  | _ => none

/-- Applying a whole sequence of (already validated) actions in order;
`none` as soon as one application fails. -/
def Game.apply_actions (g : Game) : List (CoordPair × ActionType) → Option Game
  | [] => some g
  | (coords, action_type) :: rest =>
    match g.do_move_action coords action_type with
    | some g' => g'.apply_actions rest
    | none => none

/-- `Game.move_candidates`: for every unit of the player to move, the legal
actions toward each adjacent cell, followed by the unconditional
self-destruct candidate. -/
def Game.move_candidates (g : Game) : List (CoordPair × ActionType) :=
  (g.player_units g.next_player).flatMap (fun cu =>
    let src := cu.1
    (src.iter_adjacent.filterMap (fun dst =>
      match g.is_valid_move (CoordPair.mk src dst) with
      | (true, some action_type) => some (CoordPair.mk src dst, action_type)
      | _ => none)) ++ [(CoordPair.mk src src, ActionType.SelfDestruct)])

/-- `Game.get_child_states`: all immediate child states. The Python code
clones the state and mutates the clone; here each child is the functional
result of `do_move_action`, with `none` marking a child whose construction
would have raised. -/
def Game.get_child_states (g : Game) : List (CoordPair × Option Game) :=
  g.move_candidates.map (fun ma => (ma.1, g.do_move_action ma.1 ma.2))

/-- A board cell satisfies the health invariant: empty, or holding a unit
whose health is in `[1, 9]`. -/
def cellOk : Option Unit → Bool
  | some u => decide (1 ≤ u.health ∧ u.health ≤ 9)
  | none => true

/-- The health invariant of the board: every unit still on the board is
alive with health at most 9, i.e. health in `[1, 9]` (in particular in
`[0, 9]`, and no cell holds a unit whose health has reached 0). -/
def Game.health_inv (g : Game) : Bool :=
  g.board.all (fun row => row.all cellOk)

/-! ### The search engine

`get_best_move_minimax` drives an iterative-deepening loop over two inner
search functions, `alpha_beta_search` (pruning on) and `search` (pruning
off). The Python "score" positions can hold several kinds of run-time
values, which `Score` enumerates:

* an integer heuristic score;
* `float('inf')` / `float('-inf')`, the initial best values;
* Python `None` — what `calculate_heuristic()` returns for an unknown
  heuristic name;
* an *uncalled bound method*: in `alpha_beta_search` the leaf branch reads
  `hScore = node.calculate_heuristic` without the call parentheses, so the
  value propagated as the score is the method object itself.

Comparing a number with `None` or with a method object raises `TypeError`
in Python 3; referencing `bestMove` when no iteration assigned it raises
`NameError`; iterating over a child state that failed to build raises
`AttributeError`. These run-time errors are the `Except.error` cases. -/

/-- A Python run-time value sitting in a "score" position of the search. -/
inductive Score
  | int : Int → Score
  | negInf : Score
  | posInf : Score
  | pynone : Score
  | boundMethod : Score
deriving DecidableEq, Repr

/-- The score returned by evaluating `state.calculate_heuristic()` (with
the call): an integer, or Python `None` for an unknown heuristic name. -/
def scoreOfHeuristic : Option Int → Score
  | some n => Score.int n
  | none => Score.pynone

/-- Python `<` on score values: defined between numbers, `TypeError`
otherwise. -/
def pyLt : Score → Score → Except String Bool
  | Score.int a, Score.int b => Except.ok (decide (a < b))
  | Score.int _, Score.negInf => Except.ok false
  | Score.int _, Score.posInf => Except.ok true
  | Score.negInf, Score.int _ => Except.ok true
  | Score.negInf, Score.negInf => Except.ok false
  | Score.negInf, Score.posInf => Except.ok true
  | Score.posInf, Score.int _ => Except.ok false
  | Score.posInf, Score.negInf => Except.ok false
  | Score.posInf, Score.posInf => Except.ok false
  | _, _ => Except.error "TypeError"

/-- Python `<=` on score values. -/
def pyLe : Score → Score → Except String Bool
  | Score.int a, Score.int b => Except.ok (decide (a ≤ b))
  | Score.int _, Score.negInf => Except.ok false
  | Score.int _, Score.posInf => Except.ok true
  | Score.negInf, _ => Except.ok true
  | Score.posInf, Score.int _ => Except.ok false
  | Score.posInf, Score.negInf => Except.ok false
  | Score.posInf, Score.posInf => Except.ok true
  | _, Score.negInf => Except.error "TypeError"
  | _, Score.posInf => Except.error "TypeError"
  | _, _ => Except.error "TypeError"

/-- Python `max(a, b)`: keeps `a` unless `b > a`. -/
def pyMax (a b : Score) : Except String Score := do
  let lt ← pyLt a b
  pure (if lt then b else a)

/-- Python `min(a, b)`: keeps `a` unless `b < a`. -/
def pyMin (a b : Score) : Except String Score := do
  let lt ← pyLt b a
  pure (if lt then b else a)

/-- The maximizing loop body of `alpha_beta_search`. `bestValue` starts at
`float('-inf')` and `bestMove` starts unassigned (`none`); returning with
it still unassigned is the Python `NameError`. -/
def ab_max_loop (recurse : Game → Score → Score → Except String (Score × Option CoordPair)) :
    List (CoordPair × Option Game) → Score → Option CoordPair → Score → Score →
    Except String (Score × Option CoordPair)
  | [], bestValue, bestMove, _, _ =>
    match bestMove with
    | some m => Except.ok (bestValue, some m)
    | none => Except.error "NameError"
  | (move, childState) :: rest, bestValue, bestMove, alphaVal, betaVal =>
    match childState with
    | none => Except.error "AttributeError"
    | some child => do
      let r ← recurse child.next_turn alphaVal betaVal
      let child_value := r.1
      let lt ← pyLt bestValue child_value
      let bestValue' := if lt then child_value else bestValue
      let bestMove' := if lt then some move else bestMove
      let alphaVal' ← pyMax bestValue' alphaVal
      let cut ← pyLe betaVal alphaVal'
      if cut then
        match bestMove' with
        | some m => Except.ok (bestValue', some m)
        | none => Except.error "NameError"
      else ab_max_loop recurse rest bestValue' bestMove' alphaVal' betaVal

/-- The minimizing loop body of `alpha_beta_search`; `bestValue` starts at
`float('inf')`. -/
def ab_min_loop (recurse : Game → Score → Score → Except String (Score × Option CoordPair)) :
    List (CoordPair × Option Game) → Score → Option CoordPair → Score → Score →
    Except String (Score × Option CoordPair)
  | [], bestValue, bestMove, _, _ =>
    match bestMove with
    | some m => Except.ok (bestValue, some m)
    | none => Except.error "NameError"
  | (move, childState) :: rest, bestValue, bestMove, alphaVal, betaVal =>
    match childState with
    | none => Except.error "AttributeError"
    | some child => do
      let r ← recurse child.next_turn alphaVal betaVal
      let child_value := r.1
      let gt ← pyLt child_value bestValue
      let bestValue' := if gt then child_value else bestValue
      let bestMove' := if gt then some move else bestMove
      let betaVal' ← pyMin bestValue' betaVal
      let cut ← pyLe betaVal' alphaVal
      if cut then
        match bestMove' with
        | some m => Except.ok (bestValue', some m)
        | none => Except.error "NameError"
      else ab_min_loop recurse rest bestValue' bestMove' alphaVal betaVal'

/-- `alpha_beta_search` (the inner function of `get_best_move_minimax`,
pruning enabled). `selfTurns` is the enclosing `self.turns_played`. The
leaf branch evaluates
`hScore = node.calculate_heuristic` — without the call parentheses — so it
returns the bound method object (`Score.boundMethod`), not a number. The
wall-clock condition is modelled as never firing, and `fuel` bounds the
recursion depth (any fuel larger than the depth limit is enough). -/
def alpha_beta_search (selfTurns : Int) :
    Nat → Bool → Int → Game → Score → Score → Except String (Score × Option CoordPair)
  | 0, _, _, _, _, _ => Except.error "fuel"
  | fuel + 1, max_player, curDepth, node, alphaVal, betaVal =>
    if node.options.max_depth = some (curDepth - selfTurns) ∨ node.is_finished = true then
      Except.ok (Score.boundMethod, none)
    else if max_player then
      ab_max_loop (fun child a b => alpha_beta_search selfTurns fuel false (curDepth + 1) child a b)
        node.get_child_states Score.negInf none alphaVal betaVal
    else
      ab_min_loop (fun child a b => alpha_beta_search selfTurns fuel true (curDepth + 1) child a b)
        node.get_child_states Score.posInf none alphaVal betaVal

/-- The maximizing loop body of the plain `search`; here `best_move` is
explicitly initialized to `None`, so an empty candidate list returns
`(float('-inf'), None)` without error. -/
def minimax_loop_max (recurse : Game → Except String (Score × Option CoordPair)) :
    List (CoordPair × Option Game) → Score → Option CoordPair →
    Except String (Score × Option CoordPair)
  | [], value, best_move => Except.ok (value, best_move)
  | (mv, childState) :: rest, value, best_move =>
    match childState with
    | none => Except.error "AttributeError"
    | some child => do
      let r ← recurse child.next_turn
      let child_value := r.1
      let gt ← pyLt value child_value
      if gt then minimax_loop_max recurse rest child_value (some mv)
      else minimax_loop_max recurse rest value best_move

/-- The minimizing loop body of the plain `search`. -/
def minimax_loop_min (recurse : Game → Except String (Score × Option CoordPair)) :
    List (CoordPair × Option Game) → Score → Option CoordPair →
    Except String (Score × Option CoordPair)
  | [], value, best_move => Except.ok (value, best_move)
  | (mv, childState) :: rest, value, best_move =>
    match childState with
    | none => Except.error "AttributeError"
    | some child => do
      let r ← recurse child.next_turn
      let child_value := r.1
      let lt ← pyLt child_value value
      if lt then minimax_loop_min recurse rest child_value (some mv)
      else minimax_loop_min recurse rest value best_move

/-- `search` (the inner function of `get_best_move_minimax`, pruning
disabled). Its leaf branch calls `state.calculate_heuristic()` (with the
parentheses) and returns the resulting value. The wall-clock condition is
modelled as never firing and the `Stats` counters are omitted. -/
def search (selfTurns maxDepth : Int) :
    Nat → Game → Int → Bool → Except String (Score × Option CoordPair)
  | 0, _, _, _ => Except.error "fuel"
  | fuel + 1, state, currentDepth, maximizingPlayer =>
    if currentDepth - selfTurns = maxDepth ∨ state.is_finished = true then
      Except.ok (scoreOfHeuristic state.calculate_heuristic, none)
    else if maximizingPlayer then
      minimax_loop_max (fun child => search selfTurns maxDepth fuel child (currentDepth + 1) false)
        state.get_child_states Score.negInf none
    else
      minimax_loop_min (fun child => search selfTurns maxDepth fuel child (currentDepth + 1) true)
        state.get_child_states Score.posInf none

/-- `MAX_HEURISTIC_SCORE`. -/
def MAX_HEURISTIC_SCORE : Int := 2000000000

/-- `MIN_HEURISTIC_SCORE`. -/
def MIN_HEURISTIC_SCORE : Int := -2000000000

/-! ### Specification-side predicates

These two definitions follow the words of the specification (not the
source); they are compared against the source-derived definitions in the
theorems below. -/

/-- The movement-direction rule as the specification words it:
Command (AI), Program and Firewall units move only Up or Left for the
Attacker and only Down or Right for the Defender; the Attacker's Virus and
the Defender's Technician move in any direction; the wrong free-moving
type for a side (Defender's Virus, Attacker's Technician) has no valid
directions. -/
def spec_direction_allowed (p : Player) (t : UnitType) (d : Direction) : Bool :=
  match p, t with
  | Player.Attacker, UnitType.Virus => true
  | Player.Attacker, UnitType.Tech => false
  | Player.Attacker, _ => decide (d = Direction.Up ∨ d = Direction.Left)
  | Player.Defender, UnitType.Tech => true
  | Player.Defender, UnitType.Virus => false
  | Player.Defender, _ => decide (d = Direction.Down ∨ d = Direction.Right)

/-- "src and dst differ in exactly one axis by exactly one step", as the
specification words the condition under which a move's direction is
derivable. -/
def one_step_apart (p : CoordPair) : Bool :=
  decide ((p.src.row = p.dst.row ∧ (p.src.col - p.dst.col = 1 ∨ p.dst.col - p.src.col = 1)) ∨
          (p.src.col = p.dst.col ∧ (p.src.row - p.dst.row = 1 ∨ p.dst.row - p.src.row = 1)))

/-! ### Concrete example states

Small hand-built states used by counterexamples and witnesses. -/

/-- An Attacker Program at full health. -/
def progA : Unit := { player := Player.Attacker, type := UnitType.Program, health := 9 }

/-- A Defender Program at full health. -/
def progD : Unit := { player := Player.Defender, type := UnitType.Program, health := 9 }

/-- A 2×2 game: Defender Program at (0,0), Attacker Program at (1,0),
Attacker to move. -/
def gP : Game :=
  { board := [[some progD, none], [some progA, none]],
    next_player := Player.Attacker,
    options := { dim := 2, heuristic := some "e0" } }

/-- The attack from (1,0) onto (0,0) in `gP`. -/
def cP : CoordPair := { src := { row := 1, col := 0 }, dst := { row := 0, col := 0 } }

/-- The state `gP` after the mutual Program attack: both units at health 6. -/
def gPpost : Game :=
  { board := [[some { player := Player.Defender, type := UnitType.Program, health := 6 }, none],
              [some { player := Player.Attacker, type := UnitType.Program, health := 6 }, none]],
    next_player := Player.Attacker,
    options := { dim := 2, heuristic := some "e0" } }

/-- A 1×1 game in which the Attacker's Command unit is destroyed while the
Defender's survives, with the turn limit far from reached. -/
def gC1x : Game :=
  { board := [[none]],
    options := { dim := 1, max_turns := some 100 },
    attacker_has_ai := false,
    defender_has_ai := true }

/-- A 1×1 game in which the Defender's Command unit is destroyed while the
Attacker's survives, with the turn limit far from reached. -/
def gC1w : Game :=
  { board := [[none]],
    options := { dim := 1, max_turns := some 100 },
    attacker_has_ai := true,
    defender_has_ai := false }

/-- A terminal 2×2 game (turn limit reached) with heuristic `"e0"`
configured: both search leaf branches fire immediately on it. -/
def gC2x : Game :=
  { board := [[none, none], [none, none]],
    turns_played := 100,
    options := { dim := 2, max_turns := some 100, heuristic := some "e0" } }

/-- A 2×2 game: Defender AI at (0,0), Attacker Virus at (0,1), Attacker to
move — the Virus attack kills the AI outright. -/
def gC7x : Game :=
  { board := [[some { player := Player.Defender, type := UnitType.AI, health := 9 },
               some { player := Player.Attacker, type := UnitType.Virus, health := 9 }],
              [none, none]],
    next_player := Player.Attacker,
    options := { dim := 2 } }

/-- The Virus attack in `gC7x`. -/
def cC7x : CoordPair := { src := { row := 0, col := 1 }, dst := { row := 0, col := 0 } }

/-- A 2×2 game with a single Attacker Program at (1,1), Attacker to move:
the move up to (0,1) is a legal Move. -/
def gC5w : Game :=
  { board := [[none, none], [none, some progA]],
    next_player := Player.Attacker,
    options := { dim := 2 } }

/-- The upward move in `gC5w`. -/
def cC5w : CoordPair := { src := { row := 1, col := 1 }, dst := { row := 0, col := 1 } }

/-- `gC5w` after the Program moves from (1,1) to (0,1). -/
def gC5wPost : Game :=
  { board := [[none, some progA], [none, none]],
    next_player := Player.Attacker,
    options := { dim := 2 } }

/-- A game whose turn counter has reached the configured limit while both
Command units are still alive. -/
def gC9w : Game :=
  { board := [[none]],
    turns_played := 100,
    options := { dim := 1, max_turns := some 100 },
    attacker_has_ai := true,
    defender_has_ai := true }

/-- A game with entirely default options: in particular the heuristic is
unset. -/
def gC10w : Game :=
  { board := [[none]], options := {} }

/-- A 3×3 game for self-destruct: Attacker Program (health 9) at (0,0),
Defender Program (health 9) at (0,1), Defender Firewall (health 1) at
(1,0) and an Attacker Virus at (1,1) about to self-destruct. -/
def gSD : Game :=
  { board := [[some progA, some progD, none],
              [some { player := Player.Defender, type := UnitType.Firewall, health := 1 },
               some { player := Player.Attacker, type := UnitType.Virus, health := 9 }, none],
              [none, none, none]],
    next_player := Player.Attacker,
    options := { dim := 3 } }

/-- `gSD` after the Virus at (1,1) self-destructs: both Programs lose 2
health, the health-1 Firewall and the Virus itself are gone. -/
def gSDpost : Game :=
  { board := [[some { player := Player.Attacker, type := UnitType.Program, health := 7 },
               some { player := Player.Defender, type := UnitType.Program, health := 7 }, none],
              [none, none, none],
              [none, none, none]],
    next_player := Player.Attacker,
    options := { dim := 3 } }

/-! ### Board access lemmas -/

theorem list_getD_set_self {α : Type _} (l : List α) (i : Nat) (a d : α)
    (h : i < l.length) : (l.set i a).getD i d = a := by
  rw [List.getD_eq_getElem?_getD, List.getElem?_set_self]
  · simp [List.getElem?_eq_getElem h]
  · exact h

theorem list_getD_set_ne {α : Type _} (l : List α) (i j : Nat) (a d : α)
    (h : i ≠ j) : (l.set i a).getD j d = l.getD j d := by
  rw [List.getD_eq_getElem?_getD, List.getElem?_set_ne h, ← List.getD_eq_getElem?_getD]

theorem Game.get_of_invalid {g : Game} {c : Coord} (h : g.is_valid_coord c = false) :
    g.get c = none := by
  unfold Game.get
  rw [h]
  simp

theorem Game.get_eq {g : Game} {c : Coord} (hv : g.is_valid_coord c = true) :
    g.get c = (g.board.getD c.row.toNat []).getD c.col.toNat none := by
  unfold Game.get
  rw [hv]
  simp

theorem Game.get_some_valid {g : Game} {c : Coord} {u : Unit} (h : g.get c = some u) :
    g.is_valid_coord c = true := by
  cases hv : g.is_valid_coord c with
  | true => rfl
  | false => rw [Game.get_of_invalid hv] at h; cases h

theorem Game.set_options (g : Game) (c : Coord) (v : Option Unit) :
    (g.set c v).options = g.options := by
  unfold Game.set
  split <;> rfl

theorem Game.set_valid_eq (g : Game) (c c' : Coord) (v : Option Unit) :
    (g.set c v).is_valid_coord c' = g.is_valid_coord c' := by
  unfold Game.is_valid_coord
  rw [Game.set_options]

theorem Game.set_board_of_valid {g : Game} {c : Coord} (v : Option Unit)
    (hv : g.is_valid_coord c = true) :
    (g.set c v).board =
      g.board.set c.row.toNat ((g.board.getD c.row.toNat []).set c.col.toNat v) := by
  unfold Game.set
  rw [hv]
  simp

theorem Game.set_of_invalid {g : Game} {c : Coord} (v : Option Unit)
    (hv : g.is_valid_coord c = false) : g.set c v = g := by
  unfold Game.set
  rw [hv]
  simp

theorem Game.set_next_player (g : Game) (c : Coord) (v : Option Unit) :
    (g.set c v).next_player = g.next_player := by
  unfold Game.set
  split <;> rfl

theorem Game.set_turns_played (g : Game) (c : Coord) (v : Option Unit) :
    (g.set c v).turns_played = g.turns_played := by
  unfold Game.set
  split <;> rfl

theorem Game.set_attacker_flag (g : Game) (c : Coord) (v : Option Unit) :
    (g.set c v).attacker_has_ai = g.attacker_has_ai := by
  unfold Game.set
  split <;> rfl

theorem Game.set_defender_flag (g : Game) (c : Coord) (v : Option Unit) :
    (g.set c v).defender_has_ai = g.defender_has_ai := by
  unfold Game.set
  split <;> rfl

theorem Game.set_set (g : Game) (c : Coord) (v w : Option Unit) :
    (g.set c v).set c w = g.set c w := by
  cases hv : g.is_valid_coord c with
  | false => rw [Game.set_of_invalid v hv]
  | true =>
    have hv1 : (g.set c v).is_valid_coord c = true := by rw [Game.set_valid_eq]; exact hv
    have hb : ((g.set c v).set c w).board = (g.set c w).board := by
      rw [Game.set_board_of_valid w hv1, Game.set_board_of_valid v hv,
          Game.set_board_of_valid w hv]
      by_cases hr : c.row.toNat < g.board.length
      · rw [list_getD_set_self _ _ _ _ hr, List.set_set, List.set_set]
      · rw [List.set_eq_of_length_le (l := g.board) (by omega)]
    refine Game.ext hb ?_ ?_ ?_ ?_ ?_
    · rw [Game.set_next_player, Game.set_next_player, Game.set_next_player]
    · rw [Game.set_turns_played, Game.set_turns_played, Game.set_turns_played]
    · rw [Game.set_options, Game.set_options, Game.set_options]
    · rw [Game.set_attacker_flag, Game.set_attacker_flag, Game.set_attacker_flag]
    · rw [Game.set_defender_flag, Game.set_defender_flag, Game.set_defender_flag]

theorem Game.wf_board_length {g : Game} (h : g.wf = true) :
    g.board.length = g.options.dim.toNat := by
  unfold Game.wf at h
  simp only [Bool.and_eq_true, decide_eq_true_eq] at h
  exact h.1

theorem Game.wf_row_length {g : Game} (h : g.wf = true) {row : List (Option Unit)}
    (hrow : row ∈ g.board) : row.length = g.options.dim.toNat := by
  unfold Game.wf at h
  simp only [Bool.and_eq_true, List.all_eq_true, decide_eq_true_eq] at h
  exact h.2 row hrow

theorem Game.valid_row_lt {g : Game} {c : Coord} (hwf : g.wf = true)
    (hv : g.is_valid_coord c = true) : c.row.toNat < g.board.length := by
  rw [Game.wf_board_length hwf]
  unfold Game.is_valid_coord at hv
  simp only [decide_eq_true_eq] at hv
  omega

theorem Game.row_mem {g : Game} {c : Coord} (hwf : g.wf = true)
    (hv : g.is_valid_coord c = true) : g.board.getD c.row.toNat [] ∈ g.board := by
  have hr := Game.valid_row_lt hwf hv
  rw [List.getD_eq_getElem?_getD, List.getElem?_eq_getElem hr]
  exact List.getElem_mem hr

theorem Game.valid_col_lt {g : Game} {c : Coord} (hwf : g.wf = true)
    (hv : g.is_valid_coord c = true) :
    c.col.toNat < (g.board.getD c.row.toNat []).length := by
  rw [Game.wf_row_length hwf (Game.row_mem hwf hv)]
  unfold Game.is_valid_coord at hv
  simp only [decide_eq_true_eq] at hv
  omega

theorem Game.get_set_self {g : Game} {c : Coord} (v : Option Unit)
    (hwf : g.wf = true) (hv : g.is_valid_coord c = true) :
    (g.set c v).get c = v := by
  have hr := Game.valid_row_lt hwf hv
  have hcol := Game.valid_col_lt hwf hv
  rw [Game.get_eq (by rw [Game.set_valid_eq]; exact hv), Game.set_board_of_valid v hv,
      list_getD_set_self _ _ _ _ hr, list_getD_set_self _ _ _ _ hcol]

theorem Game.get_set_ne {g : Game} {c c' : Coord} (v : Option Unit) (hne : c ≠ c') :
    (g.set c' v).get c = g.get c := by
  cases hv : g.is_valid_coord c with
  | false =>
    rw [Game.get_of_invalid hv, Game.get_of_invalid]
    rw [Game.set_valid_eq]
    exact hv
  | true =>
    cases hv' : g.is_valid_coord c' with
    | false => rw [Game.set_of_invalid v hv']
    | true =>
      rw [Game.get_eq (by rw [Game.set_valid_eq]; exact hv), Game.get_eq hv,
          Game.set_board_of_valid v hv']
      by_cases hr : c.row.toNat = c'.row.toNat
      · have hrow : c.row = c'.row := by
          unfold Game.is_valid_coord at hv hv'
          simp only [decide_eq_true_eq] at hv hv'
          omega
        have hcol : c.col.toNat ≠ c'.col.toNat := by
          unfold Game.is_valid_coord at hv hv'
          simp only [decide_eq_true_eq] at hv hv'
          have : c.col ≠ c'.col := by
            intro hc
            exact hne (by cases c; cases c'; simp only at hrow hc; rw [hrow, hc])
          omega
        by_cases hlen : c'.row.toNat < g.board.length
        · rw [hr, list_getD_set_self _ _ _ _ hlen, list_getD_set_ne _ _ _ _ _ (by omega)]
        · rw [List.set_eq_of_length_le (by omega)]
      · rw [list_getD_set_ne _ _ _ _ _ (by omega)]

theorem Game.set_wf {g : Game} {c : Coord} (v : Option Unit) (hwf : g.wf = true) :
    (g.set c v).wf = true := by
  cases hv : g.is_valid_coord c with
  | false => rw [Game.set_of_invalid v hv]; exact hwf
  | true =>
    unfold Game.wf at hwf ⊢
    rw [Game.set_options, Game.set_board_of_valid v hv]
    simp only [Bool.and_eq_true, decide_eq_true_eq, List.all_eq_true, List.length_set] at hwf ⊢
    refine ⟨hwf.1, ?_⟩
    intro row hrow
    rcases List.mem_or_eq_of_mem_set hrow with h | h
    · exact hwf.2 row h
    · subst h
      rw [List.length_set]
      exact hwf.2 _ (Game.row_mem (by unfold Game.wf; simp [hwf.1, List.all_eq_true]; exact hwf.2) hv)

/-! ### `remove_dead` and `mod_health` lemmas -/

theorem Game.get_update_attacker (g : Game) (b : Bool) (c : Coord) :
    ({ g with attacker_has_ai := b } : Game).get c = g.get c := rfl

theorem Game.get_update_defender (g : Game) (b : Bool) (c : Coord) :
    ({ g with defender_has_ai := b } : Game).get c = g.get c := rfl

theorem Game.wf_update_attacker (g : Game) (b : Bool) :
    ({ g with attacker_has_ai := b } : Game).wf = g.wf := rfl

theorem Game.wf_update_defender (g : Game) (b : Bool) :
    ({ g with defender_has_ai := b } : Game).wf = g.wf := rfl

theorem Game.health_inv_update_attacker (g : Game) (b : Bool) :
    ({ g with attacker_has_ai := b } : Game).health_inv = g.health_inv := rfl

theorem Game.health_inv_update_defender (g : Game) (b : Bool) :
    ({ g with defender_has_ai := b } : Game).health_inv = g.health_inv := rfl

/-- The clamped health value produced by `Unit.mod_health`. -/
theorem Unit.mod_health_health (u : Unit) (d : Int) :
    (u.mod_health d).health =
      (if u.health + d < 0 then 0 else if u.health + d > 9 then 9 else u.health + d) := by
  unfold Unit.mod_health
  dsimp only
  split_ifs <;> rfl

theorem Unit.mod_health_bounds (u : Unit) (d : Int) :
    0 ≤ (u.mod_health d).health ∧ (u.mod_health d).health ≤ 9 := by
  unfold Unit.mod_health
  dsimp only
  split_ifs <;> constructor <;> simp <;> omega

theorem Unit.mod_health_player (u : Unit) (d : Int) : (u.mod_health d).player = u.player := by
  unfold Unit.mod_health
  dsimp only
  split_ifs <;> rfl

theorem Unit.mod_health_type (u : Unit) (d : Int) : (u.mod_health d).type = u.type := by
  unfold Unit.mod_health
  dsimp only
  split_ifs <;> rfl

theorem Game.remove_dead_get_ne {g : Game} {c c' : Coord} (hne : c ≠ c') :
    (g.remove_dead c').get c = g.get c := by
  unfold Game.remove_dead
  cases hget : g.get c' with
  | none => rfl
  | some u =>
    dsimp only
    split
    · rfl
    · split
      · split
        · rw [Game.get_update_attacker, Game.get_set_ne _ hne]
        · rw [Game.get_update_defender, Game.get_set_ne _ hne]
      · rw [Game.get_set_ne _ hne]

theorem Game.remove_dead_wf {g : Game} (c : Coord) (hwf : g.wf = true) :
    (g.remove_dead c).wf = true := by
  unfold Game.remove_dead
  cases hget : g.get c with
  | none => exact hwf
  | some u =>
    dsimp only
    split
    · exact hwf
    · split
      · split
        · rw [Game.wf_update_attacker]; exact Game.set_wf _ hwf
        · rw [Game.wf_update_defender]; exact Game.set_wf _ hwf
      · exact Game.set_wf _ hwf

theorem Game.mod_health_eq_none {g : Game} {c : Coord} (d : Int) (hget : g.get c = none) :
    g.mod_health c d = g := by
  unfold Game.mod_health
  rw [hget]

theorem Game.mod_health_eq_of_get {g : Game} {c : Coord} {u : Unit} (d : Int)
    (hget : g.get c = some u) :
    g.mod_health c d = (g.set c (some (u.mod_health d))).remove_dead c := by
  unfold Game.mod_health
  rw [hget]

theorem Game.mod_health_get_ne {g : Game} {c c' : Coord} (d : Int) (hne : c ≠ c') :
    (g.mod_health c' d).get c = g.get c := by
  cases hget : g.get c' with
  | none => rw [Game.mod_health_eq_none d hget]
  | some u =>
    rw [Game.mod_health_eq_of_get d hget, Game.remove_dead_get_ne hne, Game.get_set_ne _ hne]

theorem Game.mod_health_wf {g : Game} (c : Coord) (d : Int) (hwf : g.wf = true) :
    (g.mod_health c d).wf = true := by
  cases hget : g.get c with
  | none => rw [Game.mod_health_eq_none d hget]; exact hwf
  | some u =>
    rw [Game.mod_health_eq_of_get d hget]
    exact Game.remove_dead_wf _ (Game.set_wf _ hwf)

theorem Game.mod_health_get_self {g : Game} (c : Coord) (d : Int) (hwf : g.wf = true) :
    (g.mod_health c d).get c =
      (match g.get c with
       | none => none
       | some u =>
         if 0 < (u.mod_health d).health then some (u.mod_health d) else none) := by
  cases hget : g.get c with
  | none => rw [Game.mod_health_eq_none d hget]; exact hget
  | some u =>
    rw [Game.mod_health_eq_of_get d hget]
    have hv := Game.get_some_valid hget
    have hget1 : (g.set c (some (u.mod_health d))).get c = some (u.mod_health d) :=
      Game.get_set_self _ hwf hv
    unfold Game.remove_dead
    rw [hget1]
    dsimp only
    by_cases ha : 0 < (u.mod_health d).health
    · rw [if_pos (by unfold Unit.is_alive; simp [ha]), hget1, if_pos ha]
    · rw [if_neg (by unfold Unit.is_alive; simp [ha]), if_neg ha]
      have hnone : ((g.set c (some (u.mod_health d))).set c none).get c = none :=
        Game.get_set_self _ (Game.set_wf _ hwf) (by rw [Game.set_valid_eq]; exact hv)
      split
      · split
        · rw [Game.get_update_attacker, hnone]
        · rw [Game.get_update_defender, hnone]
      · exact hnone

/-! ### Health invariant lemmas -/

theorem Game.health_inv_get {g : Game} (hinv : g.health_inv = true) (c : Coord) :
    cellOk (g.get c) = true := by
  cases hv : g.is_valid_coord c with
  | false => rw [Game.get_of_invalid hv]; rfl
  | true =>
    rw [Game.get_eq hv]
    by_cases hr : c.row.toNat < g.board.length
    · have hrow : g.board.getD c.row.toNat [] ∈ g.board := by
        rw [List.getD_eq_getElem?_getD, List.getElem?_eq_getElem hr]
        exact List.getElem_mem hr
      by_cases hc : c.col.toNat < (g.board.getD c.row.toNat []).length
      · have hmem : (g.board.getD c.row.toNat []).getD c.col.toNat none ∈
            g.board.getD c.row.toNat [] := by
          rw [List.getD_eq_getElem?_getD _ c.col.toNat, List.getElem?_eq_getElem hc]
          exact List.getElem_mem hc
        unfold Game.health_inv at hinv
        simp only [List.all_eq_true] at hinv
        exact hinv _ hrow _ hmem
      · rw [List.getD_eq_getElem?_getD _ c.col.toNat, List.getElem?_eq_none (by omega)]
        rfl
    · rw [List.getD_eq_getElem?_getD g.board, List.getElem?_eq_none (l := g.board) (by omega)]
      rfl

theorem Game.health_inv_set {g : Game} {c : Coord} {v : Option Unit}
    (hinv : g.health_inv = true) (hcell : cellOk v = true) :
    (g.set c v).health_inv = true := by
  cases hv : g.is_valid_coord c with
  | false => rw [Game.set_of_invalid _ hv]; exact hinv
  | true =>
    unfold Game.health_inv at hinv ⊢
    rw [Game.set_board_of_valid v hv]
    simp only [List.all_eq_true] at hinv ⊢
    intro row hrow
    rcases List.mem_or_eq_of_mem_set hrow with h | h
    · exact hinv row h
    · subst h
      intro cell hcellmem
      rcases List.mem_or_eq_of_mem_set hcellmem with h2 | h2
      · by_cases hr : c.row.toNat < g.board.length
        · refine hinv _ ?_ cell h2
          rw [List.getD_eq_getElem?_getD, List.getElem?_eq_getElem hr]
          exact List.getElem_mem hr
        · rw [List.getD_eq_getElem?_getD, List.getElem?_eq_none (by omega)] at h2
          simp at h2
      · subst h2
        exact hcell

theorem Game.remove_dead_health_inv {g : Game} (c : Coord) (hinv : g.health_inv = true) :
    (g.remove_dead c).health_inv = true := by
  unfold Game.remove_dead
  cases hget : g.get c with
  | none => exact hinv
  | some u =>
    dsimp only
    split
    · exact hinv
    · split
      · split
        · rw [Game.health_inv_update_attacker]; exact Game.health_inv_set hinv rfl
        · rw [Game.health_inv_update_defender]; exact Game.health_inv_set hinv rfl
      · exact Game.health_inv_set hinv rfl

theorem Game.mod_health_health_inv {g : Game} (c : Coord) (d : Int)
    (hwf : g.wf = true) (hinv : g.health_inv = true) :
    (g.mod_health c d).health_inv = true := by
  cases hget : g.get c with
  | none => rw [Game.mod_health_eq_none d hget]; exact hinv
  | some u =>
    rw [Game.mod_health_eq_of_get d hget]
    have hv := Game.get_some_valid hget
    have hget1 : (g.set c (some (u.mod_health d))).get c = some (u.mod_health d) :=
      Game.get_set_self _ hwf hv
    unfold Game.remove_dead
    rw [hget1]
    dsimp only
    by_cases ha : 0 < (u.mod_health d).health
    · rw [if_pos (by unfold Unit.is_alive; simp [ha])]
      refine Game.health_inv_set hinv ?_
      have := Unit.mod_health_bounds u d
      unfold cellOk
      simp only [decide_eq_true_eq]
      omega
    · rw [if_neg (by unfold Unit.is_alive; simp [ha])]
      have hcollapse : (g.set c (some (u.mod_health d))).set c none = g.set c none :=
        Game.set_set g c _ none
      split
      · split
        · rw [Game.health_inv_update_attacker, hcollapse]
          exact Game.health_inv_set hinv rfl
        · rw [Game.health_inv_update_defender, hcollapse]
          exact Game.health_inv_set hinv rfl
      · rw [hcollapse]
        exact Game.health_inv_set hinv rfl

/-! ### Claim C1: winner detection from the Command-unit flags -/

/-- C1 (counterexample): The claim states that `has_winner` returns
*Attacker* when the Attacker's Command unit is destroyed while the
Defender's survives. On the state `gC1x` — Attacker's Command unit
destroyed, Defender's alive, turn limit (100) not reached — the code
returns `Defender`, not `Attacker`. -/
theorem has_winner_counterexample :
    gC1x.attacker_has_ai = false ∧ gC1x.defender_has_ai = true ∧
    gC1x.options.max_turns = some 100 ∧ gC1x.turns_played = 0 ∧
    gC1x.has_winner ≠ some Player.Attacker ∧
    gC1x.has_winner = some Player.Defender := by
  refine ⟨rfl, rfl, rfl, rfl, by decide, rfl⟩

/-- C1 (amended): For every game state in which the configured turn
limit has not been reached, `has_winner` returns: no winner while both
Command units survive; *Attacker* when the Defender's Command unit is
destroyed while the Attacker's survives; *Defender* when the Attacker's
Command unit is destroyed while the Defender's survives; and *Defender*
when both are destroyed. -/
theorem has_winner_command_cases (g : Game)
    (h : match g.options.max_turns with
         | some m => g.turns_played < m
         | none => True) :
    (g.attacker_has_ai = true → g.defender_has_ai = true → g.has_winner = none) ∧
    (g.attacker_has_ai = true → g.defender_has_ai = false →
      g.has_winner = some Player.Attacker) ∧
    (g.attacker_has_ai = false → g.defender_has_ai = true →
      g.has_winner = some Player.Defender) ∧
    (g.attacker_has_ai = false → g.defender_has_ai = false →
      g.has_winner = some Player.Defender) := by
  have hcond : (match g.options.max_turns with
      | some m => decide (m ≤ g.turns_played)
      | none => false) = false := by
    cases hm : g.options.max_turns with
    | none => rfl
    | some m =>
      rw [hm] at h
      have h' : g.turns_played < m := h
      simp only [decide_eq_false_iff_not]
      omega
  refine ⟨?_, ?_, ?_, ?_⟩ <;>
    intro h1 h2 <;> unfold Game.has_winner <;> rw [hcond] <;> simp [h1, h2]

/-- C1 (witness): On `gC1w` (Defender's Command unit destroyed,
Attacker's alive, turn limit not reached) the amended theorem reports the
Attacker as the winner. -/
theorem has_winner_command_cases_witness :
    gC1w.has_winner = some Player.Attacker :=
  (has_winner_command_cases gC1w (show (0 : Int) < 100 by decide)).2.1 rfl rfl

/-! ### Claim C2: the alpha-beta leaf never calls the heuristic -/

/-- C2: On the terminal state `gC2x` (turn limit reached, heuristic
`"e0"` configured), the plain `search` leaf returns the integer score `0`,
but `alpha_beta_search` returns the *uncalled bound method*
`calculate_heuristic` as its score (`hScore = node.calculate_heuristic` is
missing the call parentheses), so the two searches cannot return the same
optimal score. -/
theorem alpha_beta_missing_heuristic_call :
    alpha_beta_search 100 5 true 100 gC2x
        (Score.int MIN_HEURISTIC_SCORE) (Score.int MAX_HEURISTIC_SCORE) =
      Except.ok (Score.boundMethod, none) ∧
    search 100 1 5 gC2x 100 true = Except.ok (Score.int 0, none) ∧
    Score.boundMethod ≠ Score.int 0 := by
  refine ⟨rfl, rfl, by decide⟩

/-! ### Claim C8: when is a move's direction defined? -/

/-- C8 (counterexample): The claim states the direction is defined
only when src and dst differ in exactly one axis by exactly one step; but
`get_direction` returns `Down` for the two-step offset (0,0) → (2,0). -/
theorem get_direction_counterexample :
    (CoordPair.mk (Coord.mk 0 0) (Coord.mk 2 0)).get_direction = some Direction.Down ∧
    one_step_apart (CoordPair.mk (Coord.mk 0 0) (Coord.mk 2 0)) = false := by
  refine ⟨rfl, rfl⟩

/-- C8 (amended): `get_direction` is defined exactly when src and dst
differ in exactly one axis, by any nonzero amount (equal coordinates and
diagonal offsets give no direction). -/
theorem get_direction_defined_iff (p : CoordPair) :
    (p.get_direction).isSome = true ↔
      ((p.src.col = p.dst.col ∧ p.src.row ≠ p.dst.row) ∨
        (p.src.row = p.dst.row ∧ p.src.col ≠ p.dst.col)) := by
  unfold CoordPair.get_direction
  split_ifs with h1 h2 h3 h4 <;> simp <;> omega

/-! ### Claim C9: the turn limit takes precedence -/

/-- C9: Whenever the turns-played counter has reached or exceeded the
configured maximum-turns limit, `has_winner` reports the Defender,
regardless of the Command-unit flags. -/
theorem max_turns_defender_wins (g : Game) (m : Int)
    (h1 : g.options.max_turns = some m) (h2 : m ≤ g.turns_played) :
    g.has_winner = some Player.Defender := by
  unfold Game.has_winner
  rw [h1]
  simp [h2]

/-- C9 (witness): `gC9w` has both Command units alive and
`turns_played = 100 = max_turns`; the Defender wins. -/
theorem max_turns_defender_wins_witness :
    gC9w.options.max_turns = some 100 ∧ (100 : Int) ≤ gC9w.turns_played ∧
    gC9w.attacker_has_ai = true ∧ gC9w.defender_has_ai = true ∧
    gC9w.has_winner = some Player.Defender :=
  ⟨rfl, by decide, rfl, rfl, max_turns_defender_wins gC9w 100 rfl (by decide)⟩

/-! ### Claim C10: domain of the static evaluator -/

/-- C10: `calculate_heuristic` returns an integer exactly when the
configured heuristic is `"e0"`, `"e1"` or `"e2"`; for any other value —
including the unset default of `Options` — it returns Python `None`. -/
theorem calculate_heuristic_domain :
    (∀ g : Game, (g.calculate_heuristic).isSome = true ↔
      (g.options.heuristic = some "e0" ∨ g.options.heuristic = some "e1" ∨
        g.options.heuristic = some "e2")) ∧
    ({} : Options).heuristic = none ∧
    (∀ g : Game, g.options.heuristic = none → g.calculate_heuristic = none) := by
  refine ⟨?_, rfl, ?_⟩
  · intro g
    unfold Game.calculate_heuristic
    split_ifs with h1 h2 h3 <;> simp_all
  · intro g hn
    unfold Game.calculate_heuristic
    simp [hn]

/-- C10 (witness): The game `gC10w` is configured with entirely
default options; its heuristic score is Python `None`. -/
theorem calculate_heuristic_domain_witness :
    gC10w.options.heuristic = none ∧ gC10w.calculate_heuristic = none :=
  ⟨rfl, calculate_heuristic_domain.2.2 gC10w rfl⟩

/-! ### Claim C3: combat is simultaneous and bidirectional -/

theorem damage_table_nonneg (t1 t2 : UnitType) :
    0 ≤ (damage_table.getD t1.value []).getD t2.value 0 := by
  cases t1 <;> cases t2 <;> decide

theorem repair_table_nonneg (t1 t2 : UnitType) :
    0 ≤ (repair_table.getD t1.value []).getD t2.value 0 := by
  cases t1 <;> cases t2 <;> decide

/-- `damage_amount` is the table value capped at the victim's current
health. -/
theorem Unit.damage_amount_eq_min (u target : Unit) :
    u.damage_amount target =
      min ((damage_table.getD u.type.value []).getD target.type.value 0) target.health := by
  have := damage_table_nonneg u.type target.type
  unfold Unit.damage_amount
  dsimp only
  split_ifs with h <;> omega

/-- Shape of a single combat health modification: subtracting `d` health
(with `0 ≤ d ≤ health ≤ 9`) leaves the same unit with `d` less health, or
an empty cell when `d` equals the whole health. -/
theorem fight_get_formula {g : Game} {c : Coord} {u : Unit} (d : Int) (hwf : g.wf = true)
    (hget : g.get c = some u) (h9 : u.health ≤ 9)
    (hd0 : 0 ≤ d) (hdle : d ≤ u.health) :
    (g.mod_health c (-d)).get c =
      (if u.health ≤ d then none else some { u with health := u.health - d }) := by
  rw [Game.mod_health_get_self c (-d) hwf, hget]
  dsimp only
  have hmod : u.mod_health (-d) = { u with health := u.health - d } := by
    unfold Unit.mod_health
    dsimp only
    split_ifs with h1 h2
    · exfalso; omega
    · exfalso; omega
    · have h3 : u.health + -d = u.health - d := by ring
      rw [h3]
  rw [hmod]
  by_cases hcase : u.health ≤ d
  · rw [if_neg (by dsimp only; omega), if_pos hcase]
  · rw [if_pos (by dsimp only; omega), if_neg hcase]

/-- C3: For a legal Attack (both cells occupied, `src ≠ dst`), both
damage values are read from the damage table and capped at the victim's
pre-attack health, both computed from the healths held before either
modification; the resulting pair of post-attack healths is independent of
the internal order of application, and a unit that dies still inflicts its
full counter-damage. -/
theorem perform_fight_bidirectional :
    ∀ (g : Game) (coords : CoordPair) (A B : Unit) (g' : Game),
      g.wf = true →
      coords.src ≠ coords.dst →
      g.get coords.src = some A → g.get coords.dst = some B →
      0 ≤ A.health → A.health ≤ 9 → 0 ≤ B.health → B.health ≤ 9 →
      g.perform_fight coords = some g' →
      A.damage_amount B =
        min ((damage_table.getD A.type.value []).getD B.type.value 0) B.health ∧
      B.damage_amount A =
        min ((damage_table.getD B.type.value []).getD A.type.value 0) A.health ∧
      g'.get coords.dst = (if B.health ≤ A.damage_amount B then none
        else some { B with health := B.health - A.damage_amount B }) ∧
      g'.get coords.src = (if A.health ≤ B.damage_amount A then none
        else some { A with health := A.health - B.damage_amount A }) ∧
      (∀ g'' : Game, g.perform_fight_swapped coords = some g'' →
        g''.get coords.dst = g'.get coords.dst ∧ g''.get coords.src = g'.get coords.src) := by
  intro g coords A B g' hwf hne hA hB hA0 hA9 hB0 hB9 hpf
  have hdB := Unit.damage_amount_eq_min A B
  have hdA := Unit.damage_amount_eq_min B A
  have htB := damage_table_nonneg A.type B.type
  have htA := damage_table_nonneg B.type A.type
  have hdB0 : 0 ≤ A.damage_amount B := by rw [hdB]; omega
  have hdBle : A.damage_amount B ≤ B.health := by rw [hdB]; omega
  have hdA0 : 0 ≤ B.damage_amount A := by rw [hdA]; omega
  have hdAle : B.damage_amount A ≤ A.health := by rw [hdA]; omega
  unfold Game.perform_fight at hpf
  rw [hA, hB] at hpf
  dsimp only at hpf
  injection hpf with hg
  subst hg
  have hg1wf : (g.mod_health coords.src (-(B.damage_amount A))).wf = true :=
    Game.mod_health_wf _ _ hwf
  have hg1B : (g.mod_health coords.src (-(B.damage_amount A))).get coords.dst = some B := by
    rw [Game.mod_health_get_ne _ (Ne.symm hne)]
    exact hB
  have hdst := fight_get_formula (g := g.mod_health coords.src (-(B.damage_amount A)))
    (A.damage_amount B) hg1wf hg1B hB9 hdB0 hdBle
  have hsrc : ((g.mod_health coords.src (-(B.damage_amount A))).mod_health coords.dst
        (-(A.damage_amount B))).get coords.src =
      (g.mod_health coords.src (-(B.damage_amount A))).get coords.src :=
    Game.mod_health_get_ne _ hne
  have hsrcval := fight_get_formula (g := g) (B.damage_amount A) hwf hA hA9 hdA0 hdAle
  refine ⟨hdB, hdA, hdst, hsrc.trans hsrcval, ?_⟩
  intro g'' hpf2
  unfold Game.perform_fight_swapped at hpf2
  rw [hA, hB] at hpf2
  dsimp only at hpf2
  injection hpf2 with hg2
  subst hg2
  have hg2wf : (g.mod_health coords.dst (-(A.damage_amount B))).wf = true :=
    Game.mod_health_wf _ _ hwf
  have hg2A : (g.mod_health coords.dst (-(A.damage_amount B))).get coords.src = some A := by
    rw [Game.mod_health_get_ne _ hne]
    exact hA
  constructor
  · have hdst2 : ((g.mod_health coords.dst (-(A.damage_amount B))).mod_health coords.src
          (-(B.damage_amount A))).get coords.dst =
        (g.mod_health coords.dst (-(A.damage_amount B))).get coords.dst :=
      Game.mod_health_get_ne _ (Ne.symm hne)
    have hdstval := fight_get_formula (g := g) (A.damage_amount B) hwf hB hB9 hdB0 hdBle
    rw [hdst2, hdstval, hdst]
  · have hsrc2 := fight_get_formula (g := g.mod_health coords.dst (-(A.damage_amount B)))
      (B.damage_amount A) hg2wf hg2A hA9 hdA0 hdAle
    rw [hsrc2, hsrc.trans hsrcval]

/-- C3 (witness): On `gP`, two adjacent opposing Programs at health 9
attack each other; the theorem's formulas give the post-fight board, and
numerically both units end at health 6 (each dealt 3 damage). -/
theorem perform_fight_bidirectional_witness :
    gP.perform_fight cP = some gPpost ∧
    gPpost.get cP.dst = (if progD.health ≤ progA.damage_amount progD then none
      else some { progD with health := progD.health - progA.damage_amount progD }) ∧
    gPpost.get cP.src = (if progA.health ≤ progD.damage_amount progA then none
      else some { progA with health := progA.health - progD.damage_amount progA }) ∧
    gPpost.get cP.dst =
      some { player := Player.Defender, type := UnitType.Program, health := 6 } ∧
    gPpost.get cP.src =
      some { player := Player.Attacker, type := UnitType.Program, health := 6 } := by
  refine ⟨by decide, ?_, ?_, by decide, by decide⟩
  · exact (perform_fight_bidirectional gP cP progA progD gPpost (by decide) (by decide)
      (by decide) (by decide) (by decide) (by decide) (by decide) (by decide)
      (by decide)).2.2.1
  · exact (perform_fight_bidirectional gP cP progA progD gPpost (by decide) (by decide)
      (by decide) (by decide) (by decide) (by decide) (by decide) (by decide)
      (by decide)).2.2.2.1

/-! ### Claim C4: the health invariant is preserved -/

/-- The neighbour-damage loop of `perform_self_distruct` preserves board
shape and the health invariant. -/
theorem Game.sd_fold_wf_inv (src : Coord) (L : List Coord) (g : Game)
    (hwf : g.wf = true) (hinv : g.health_inv = true) :
    (L.foldl (fun acc dst => if src.equals dst then acc else acc.mod_health dst (-2)) g).wf
        = true ∧
    (L.foldl (fun acc dst => if src.equals dst then acc
        else acc.mod_health dst (-2)) g).health_inv = true := by
  induction L generalizing g with
  | nil => exact ⟨hwf, hinv⟩
  | cons c rest ih =>
    simp only [List.foldl_cons]
    by_cases hc : src.equals c = true
    · rw [if_pos hc]
      exact ih g hwf hinv
    · rw [if_neg (by simp [hc])]
      exact ih _ (Game.mod_health_wf _ _ hwf) (Game.mod_health_health_inv _ _ hwf hinv)

/-- Every action application preserves board shape and the health
invariant. -/
theorem Game.do_move_action_wf_inv :
    ∀ (g : Game) (coords : CoordPair) (a : ActionType) (g' : Game),
      g.wf = true → g.health_inv = true →
      g.do_move_action coords a = some g' →
      g'.wf = true ∧ g'.health_inv = true := by
  intro g coords a g' hwf hinv hda
  cases a with
  | SelfDestruct =>
    unfold Game.do_move_action Game.perform_self_distruct at hda
    dsimp only at hda
    have hfold := Game.sd_fold_wf_inv coords.src (coords.src.iter_range 1) g hwf hinv
    cases hsu : (((coords.src.iter_range 1)).foldl (fun acc dst => if coords.src.equals dst
        then acc else acc.mod_health dst (-2)) g).get coords.src with
    | none => rw [hsu] at hda; cases hda
    | some u =>
      rw [hsu] at hda
      dsimp only at hda
      injection hda with hg
      subst hg
      exact ⟨Game.mod_health_wf _ _ hfold.1, Game.mod_health_health_inv _ _ hfold.1 hfold.2⟩
  | Move =>
    unfold Game.do_move_action at hda
    injection hda with hg
    subst hg
    refine ⟨Game.set_wf _ (Game.set_wf _ hwf), ?_⟩
    exact Game.health_inv_set (Game.health_inv_set hinv (Game.health_inv_get hinv _)) rfl
  | Attack =>
    unfold Game.do_move_action Game.perform_fight at hda
    cases hs : g.get coords.src with
    | none => rw [hs] at hda; cases hda
    | some A =>
      cases hd : g.get coords.dst with
      | none => rw [hs, hd] at hda; cases hda
      | some B =>
        rw [hs, hd] at hda
        dsimp only at hda
        injection hda with hg
        subst hg
        refine ⟨Game.mod_health_wf _ _ (Game.mod_health_wf _ _ hwf), ?_⟩
        exact Game.mod_health_health_inv _ _ (Game.mod_health_wf _ _ hwf)
          (Game.mod_health_health_inv _ _ hwf hinv)
  | Repair =>
    unfold Game.do_move_action Game.perform_repair at hda
    cases hs : g.get coords.src with
    | none => rw [hs] at hda; cases hda
    | some A =>
      cases hd : g.get coords.dst with
      | none => rw [hs, hd] at hda; cases hda
      | some B =>
        rw [hs, hd] at hda
        dsimp only at hda
        injection hda with hg
        subst hg
        exact ⟨Game.mod_health_wf _ _ hwf, Game.mod_health_health_inv _ _ hwf hinv⟩

/-- Sequences of actions preserve board shape and the health invariant. -/
theorem Game.apply_actions_wf_inv :
    ∀ (acts : List (CoordPair × ActionType)) (g g' : Game),
      g.wf = true → g.health_inv = true →
      g.apply_actions acts = some g' →
      g'.wf = true ∧ g'.health_inv = true := by
  intro acts
  induction acts with
  | nil =>
    intro g g' hwf hinv h
    unfold Game.apply_actions at h
    injection h with h
    subst h
    exact ⟨hwf, hinv⟩
  | cons ca rest ih =>
    intro g g' hwf hinv h
    obtain ⟨cc, aa⟩ := ca
    unfold Game.apply_actions at h
    cases hda : g.do_move_action cc aa with
    | none => rw [hda] at h; cases h
    | some g1 =>
      rw [hda] at h
      have hp := Game.do_move_action_wf_inv g cc aa g1 hwf hinv hda
      exact ih g1 g' hp.1 hp.2 h

/-- C4: After every health modification every unit on the board has
health in `[1, 9]` — in particular in `[0, 9]`, with any unit whose health
reached 0 removed from its cell in the same step — and the invariant is
preserved by every (well-formed) sequence of game actions. -/
theorem health_invariant_preserved :
    (∀ (g : Game) (c : Coord) (d : Int), g.wf = true → g.health_inv = true →
      (g.mod_health c d).health_inv = true ∧
      ∀ u : Unit, (g.mod_health c d).get c = some u → 1 ≤ u.health ∧ u.health ≤ 9) ∧
    (∀ (g : Game) (acts : List (CoordPair × ActionType)) (g' : Game),
      g.wf = true → g.health_inv = true → g.apply_actions acts = some g' →
      g'.health_inv = true) := by
  constructor
  · intro g c d hwf hinv
    have hinv' := Game.mod_health_health_inv c d hwf hinv
    refine ⟨hinv', ?_⟩
    intro u hu
    have hok := Game.health_inv_get hinv' c
    rw [hu] at hok
    unfold cellOk at hok
    simp only [decide_eq_true_eq] at hok
    exact hok
  · intro g acts g' hwf hinv h
    exact (Game.apply_actions_wf_inv acts g g' hwf hinv h).2

/-- C4 (witness): The mutual Program attack on `gP` keeps the
invariant: the post state `gPpost` has every unit at health in `[1,9]`. -/
theorem health_invariant_preserved_witness :
    gP.wf = true ∧ gP.health_inv = true ∧
    gP.apply_actions [(cP, ActionType.Attack)] = some gPpost ∧
    gPpost.health_inv = true :=
  ⟨by decide, by decide, by decide,
   health_invariant_preserved.2 gP [(cP, ActionType.Attack)] gPpost
     (by decide) (by decide) (by decide)⟩

/-! ### Claim C6: self-destruct -/

theorem intRange_nodup (lo hi : Int) : (intRange lo hi).Nodup := by
  unfold intRange
  refine List.Nodup.map ?_ (List.nodup_range _)
  intro a b hab
  have hab' : lo + (a : Int) = lo + (b : Int) := hab
  omega

theorem Coord.equals_iff (c d : Coord) : (c.equals d = true) ↔ c = d := by
  cases c with
  | mk r1 c1 =>
    cases d with
    | mk r2 c2 =>
      unfold Coord.equals
      simp [Coord.mk.injEq]

theorem Coord.iter_range_nodup (c : Coord) (dist : Int) : (c.iter_range dist).Nodup := by
  unfold Coord.iter_range
  rw [List.nodup_flatMap]
  constructor
  · intro r _
    refine List.Nodup.map ?_ (intRange_nodup _ _)
    intro a b hab
    simpa using hab
  · refine List.Pairwise.imp ?_ (intRange_nodup (c.row - dist) (c.row + 1 + dist))
    intro r1 r2 hne
    intro x hx1 hx2
    rcases List.mem_map.mp hx1 with ⟨a1, _, rfl⟩
    rcases List.mem_map.mp hx2 with ⟨a2, _, hx⟩
    injection hx with h1 h2
    exact hne h1.symm

/-- Cells that the neighbour-damage loop never touches (the centre, or any
coordinate outside the iterated list) keep their contents. -/
theorem Game.sd_fold_get_skip (src : Coord) :
    ∀ (L : List Coord) (g : Game) (c : Coord), (c = src ∨ c ∉ L) →
      (L.foldl (fun acc dst => if src.equals dst then acc
        else acc.mod_health dst (-2)) g).get c = g.get c := by
  intro L
  induction L with
  | nil => intro g c _; rfl
  | cons a rest ih =>
    intro g c hc
    simp only [List.foldl_cons]
    have hrest : c = src ∨ c ∉ rest := by
      rcases hc with h | h
      · exact Or.inl h
      · exact Or.inr (fun hm => h (List.mem_cons_of_mem _ hm))
    by_cases ha : src.equals a = true
    · rw [if_pos ha]
      exact ih g c hrest
    · rw [if_neg ha, ih _ c hrest]
      rcases hc with h | h
      · subst h
        refine Game.mod_health_get_ne _ (fun hca => ?_)
        exact ha ((Coord.equals_iff c a).mpr hca)
      · exact Game.mod_health_get_ne _ (fun hca => h (hca ▸ List.mem_cons_self a rest))

/-- A cell in the iterated list (other than the centre) is modified by the
loop exactly once, by `-2`. -/
theorem Game.sd_fold_get_mem (src : Coord) :
    ∀ (L : List Coord) (g : Game) (c : Coord), L.Nodup → c ∈ L → c ≠ src →
      g.wf = true →
      (L.foldl (fun acc dst => if src.equals dst then acc
        else acc.mod_health dst (-2)) g).get c =
        (match g.get c with
         | none => none
         | some u =>
           if 0 < (u.mod_health (-2)).health then some (u.mod_health (-2)) else none) := by
  intro L
  induction L with
  | nil => intro g c _ hmem; cases hmem
  | cons a rest ih =>
    intro g c hnd hmem hcs hwf
    simp only [List.foldl_cons]
    rcases List.mem_cons.mp hmem with h | h
    · subst h
      rw [if_neg (fun hh => hcs ((Coord.equals_iff src c).mp hh).symm)]
      have hnotin : c ∉ rest := (List.nodup_cons.mp hnd).1
      rw [Game.sd_fold_get_skip src rest _ c (Or.inr hnotin)]
      exact Game.mod_health_get_self c (-2) hwf
    · have hnd' : rest.Nodup := (List.nodup_cons.mp hnd).2
      by_cases ha : src.equals a = true
      · rw [if_pos ha]
        exact ih g c hnd' h hcs hwf
      · rw [if_neg ha, ih _ c hnd' h hcs (Game.mod_health_wf _ _ hwf)]
        have hca : c ≠ a := fun hh => ((List.nodup_cons.mp hnd).1 (hh ▸ h))
        rw [Game.mod_health_get_ne _ hca]

/-- C6: A self-destruct at `src` (occupied, board dimension at least 3)
deletes the acting unit — its health is driven to exactly 0 and its cell
ends empty — and every other unit in the 3×3 neighbourhood loses exactly
`min 2 health` health: it survives with 2 less health when its health
exceeded 2, and is removed otherwise; the damage is a flat 2, not read
from the damage table. -/
theorem self_destruct_spec :
    ∀ (g : Game) (src : Coord) (u : Unit) (g' : Game),
      g.wf = true → g.health_inv = true → 3 ≤ g.options.dim →
      g.get src = some u →
      g.perform_self_distruct src = some g' →
      g'.get src = none ∧
      (u.mod_health (-u.health)).health = 0 ∧
      (∀ d ∈ src.iter_range 1, d ≠ src → ∀ v : Unit, g.get d = some v →
        g'.get d = (if v.health ≤ 2 then none
          else some { v with health := v.health - 2 })) := by
  intro g src u g' hwf hinv hdim hu hsd
  unfold Game.perform_self_distruct at hsd
  dsimp only at hsd
  set g1 := (src.iter_range 1).foldl
    (fun acc dst => if src.equals dst then acc else acc.mod_health dst (-2)) g with hg1def
  have hfold := Game.sd_fold_wf_inv src (src.iter_range 1) g hwf hinv
  rw [← hg1def] at hfold
  have hskip : g1.get src = some u := by
    rw [hg1def, Game.sd_fold_get_skip src (src.iter_range 1) g src (Or.inl rfl)]
    exact hu
  rw [hskip] at hsd
  dsimp only at hsd
  injection hsd with hg
  subst hg
  have hzero : (u.mod_health (-u.health)).health = 0 := by
    rw [Unit.mod_health_health]
    split_ifs <;> omega
  refine ⟨?_, hzero, ?_⟩
  · rw [Game.mod_health_get_self src (-u.health) hfold.1, hskip]
    show (if 0 < (u.mod_health (-u.health)).health then some (u.mod_health (-u.health))
      else none) = none
    rw [if_neg (by rw [hzero]; omega)]
  · intro d hd hds v hv
    have hok := Game.health_inv_get hinv d
    rw [hv] at hok
    unfold cellOk at hok
    simp only [decide_eq_true_eq] at hok
    rw [Game.mod_health_get_ne _ hds, hg1def,
        Game.sd_fold_get_mem src (src.iter_range 1) g d
          (Coord.iter_range_nodup src 1) hd hds hwf, hv]
    show (if 0 < (v.mod_health (-2)).health then some (v.mod_health (-2)) else none) =
      (if v.health ≤ 2 then none else some { v with health := v.health - 2 })
    by_cases hc : v.health ≤ 2
    · rw [if_pos hc, if_neg (by rw [Unit.mod_health_health]; split_ifs <;> omega)]
    · have hmod : v.mod_health (-2) = { v with health := v.health - 2 } := by
        cases v with
        | mk p t h =>
          unfold Unit.mod_health
          dsimp only at hok hc ⊢
          split_ifs with h1 h2
          · exfalso; omega
          · exfalso; omega
          · have h3 : h + -2 = h - 2 := by ring
            rw [h3]
      rw [if_neg hc, hmod, if_pos ?_]
      cases v with
      | mk p t h =>
        dsimp only at hok hc ⊢
        omega

/-- C6 (witness): In `gSD` the Virus at (1,1) self-destructs: its cell
is emptied; the theorem's neighbour formula applies to every occupied
neighbour (both health-9 Programs drop to 7; the health-1 Firewall is
removed). -/
theorem self_destruct_spec_witness :
    gSD.wf = true ∧ gSD.health_inv = true ∧ (3 : Int) ≤ gSD.options.dim ∧
    gSD.get (Coord.mk 1 1) =
      some { player := Player.Attacker, type := UnitType.Virus, health := 9 } ∧
    gSD.perform_self_distruct (Coord.mk 1 1) = some gSDpost ∧
    gSDpost.get (Coord.mk 1 1) = none :=
  ⟨by decide, by decide, by decide, by decide, by decide,
   (self_destruct_spec gSD (Coord.mk 1 1)
      { player := Player.Attacker, type := UnitType.Virus, health := 9 } gSDpost
      (by decide) (by decide) (by decide) (by decide) (by decide)).1⟩

/-! ### Inversion of `is_valid_move` -/

theorem CoordPair.are_coords_equal_iff (p : CoordPair) :
    (p.are_coords_equal = true) ↔ p.src = p.dst := by
  unfold CoordPair.are_coords_equal
  exact Coord.equals_iff _ _

/-- What a successful Move classification guarantees about the state. -/
theorem Game.is_valid_move_move_inv {g : Game} {coords : CoordPair}
    (h : g.is_valid_move coords = (true, some ActionType.Move)) :
    g.is_valid_coord coords.src = true ∧ g.is_valid_coord coords.dst = true ∧
    (∃ u : Unit, g.get coords.src = some u ∧ u.player = g.next_player) ∧
    coords.src ≠ coords.dst ∧ g.get coords.dst = none := by
  unfold Game.is_valid_move at h
  split at h
  · simp at h
  · rename_i hvalid
    rw [not_or, not_not, not_not] at hvalid
    split at h
    · simp at h
    · rename_i su hsrc
      split at h
      · simp at h
      · rename_i hpl
        rw [ne_eq, not_not] at hpl
        split at h
        · simp at h
        · rename_i heq
          split at h
          · simp at h
          · rename_i hadj
            split at h
            · rename_i hdst
              refine ⟨hvalid.1, hvalid.2, ⟨su, hsrc, hpl⟩, ?_, hdst⟩
              intro hsd
              exact heq ((CoordPair.are_coords_equal_iff coords).mpr hsd)
            · rename_i du hdst
              split at h
              · split at h
                · simp at h
                · simp at h
              · simp at h

/-- What a successful Repair classification guarantees about the state. -/
theorem Game.is_valid_move_repair_inv {g : Game} {coords : CoordPair}
    (h : g.is_valid_move coords = (true, some ActionType.Repair)) :
    g.is_valid_coord coords.src = true ∧ g.is_valid_coord coords.dst = true ∧
    coords.src ≠ coords.dst ∧
    (∃ su du : Unit, g.get coords.src = some su ∧ g.get coords.dst = some du ∧
      ¬ (Game.is_repair_zero su du = true)) := by
  unfold Game.is_valid_move at h
  split at h
  · simp at h
  · rename_i hvalid
    rw [not_or, not_not, not_not] at hvalid
    split at h
    · simp at h
    · rename_i su hsrc
      split at h
      · simp at h
      · rename_i hpl
        split at h
        · simp at h
        · rename_i heq
          split at h
          · simp at h
          · rename_i hadj
            split at h
            · rename_i hdst
              dsimp only at h
              split at h
              · simp at h
              · split at h
                · simp at h
                · simp at h
            · rename_i du hdst
              split at h
              · split at h
                · rename_i hcond
                  refine ⟨hvalid.1, hvalid.2, ?_, su, du, hsrc, hdst, hcond.2.1⟩
                  intro hsd
                  exact heq ((CoordPair.are_coords_equal_iff coords).mpr hsd)
                · simp at h
              · simp at h

/-- What a successful Attack classification guarantees about the state. -/
theorem Game.is_valid_move_attack_inv {g : Game} {coords : CoordPair}
    (h : g.is_valid_move coords = (true, some ActionType.Attack)) :
    g.is_valid_coord coords.src = true ∧ g.is_valid_coord coords.dst = true ∧
    coords.src ≠ coords.dst ∧
    (∃ su du : Unit, g.get coords.src = some su ∧ g.get coords.dst = some du) := by
  unfold Game.is_valid_move at h
  split at h
  · simp at h
  · rename_i hvalid
    rw [not_or, not_not, not_not] at hvalid
    split at h
    · simp at h
    · rename_i su hsrc
      split at h
      · simp at h
      · rename_i hpl
        split at h
        · simp at h
        · rename_i heq
          split at h
          · simp at h
          · rename_i hadj
            split at h
            · rename_i hdst
              dsimp only at h
              split at h
              · simp at h
              · split at h
                · simp at h
                · simp at h
            · rename_i du hdst
              split at h
              · split at h
                · simp at h
                · simp at h
              · refine ⟨hvalid.1, hvalid.2, ?_, su, du, hsrc, hdst⟩
                intro hsd
                exact heq ((CoordPair.are_coords_equal_iff coords).mpr hsd)

/-! ### Claim C5: legality of a Move into an empty adjacent cell -/

/-- The source-derived movement rule (with Python truthiness applied to its
`bool | None` result) coincides with the specification's enumerated
direction rule. -/
theorem isTruthy_is_valid_movement (u : Unit) (p : Player) (d : Direction) :
    isTruthy (u.is_valid_movement p (some d)) = spec_direction_allowed p u.type d := by
  cases u with
  | mk pl t h => cases p <;> cases t <;> cases d <;> rfl

/-- C5: A proposed move of a unit into an empty adjacent cell is
classified as a legal Move exactly when (a) the unit is not engaged unless
it is a Technician or Virus, and (b) the move's direction obeys the
per-type/per-player rule (Command/Program/Firewall forward-only; the
Attacker's Virus and Defender's Technician free; the wrong free-moving
type never). -/
theorem move_into_empty_cell_rule :
    ∀ (g : Game) (coords : CoordPair) (u : Unit) (d : Direction),
      g.is_valid_coord coords.src = true →
      g.is_valid_coord coords.dst = true →
      g.get coords.src = some u →
      u.player = g.next_player →
      coords.src ≠ coords.dst →
      coords.is_adjacent = true →
      g.get coords.dst = none →
      coords.get_direction = some d →
      (g.is_valid_move coords = (true, some ActionType.Move) ↔
        ((g.is_engaged_in_combat coords.src = true →
            u.type = UnitType.Tech ∨ u.type = UnitType.Virus) ∧
          spec_direction_allowed g.next_player u.type d = true)) := by
  intro g coords u d hv1 hv2 hsrc hpl hne hadj hdst hdir
  unfold Game.is_valid_move
  rw [if_neg (by rw [hv1, hv2]; simp)]
  rw [hsrc]
  dsimp only
  rw [if_neg (by rw [hpl]; simp)]
  rw [if_neg (by rw [CoordPair.are_coords_equal_iff]; exact hne)]
  rw [if_neg (by rw [hadj]; simp)]
  rw [hdst]
  dsimp only
  unfold Game.is_movement_direction_valid
  rw [hdir, isTruthy_is_valid_movement]
  by_cases he : g.is_engaged_in_combat coords.src = true ∧
      u.type ≠ UnitType.Tech ∧ u.type ≠ UnitType.Virus
  · rw [if_pos he]
    constructor
    · intro hcontra
      exact absurd hcontra (by simp)
    · rintro ⟨h1, _⟩
      exfalso
      rcases h1 he.1 with ht | ht
      · exact he.2.1 ht
      · exact he.2.2 ht
  · rw [if_neg he]
    by_cases hdall : spec_direction_allowed g.next_player u.type d = true
    · rw [if_neg (by rw [hdall]; simp)]
      constructor
      · intro _
        refine ⟨?_, hdall⟩
        intro heng
        by_contra hcon
        push_neg at hcon
        exact he ⟨heng, hcon.1, hcon.2⟩
      · intro _
        rfl
    · rw [if_pos (by rw [eq_false_of_ne_true hdall]; simp)]
      constructor
      · intro hcontra
        exact absurd hcontra (by simp)
      · rintro ⟨_, h2⟩
        exact absurd h2 hdall

/-- C5 (witness): In `gC5w`, the Attacker Program at (1,1) moving Up
into the empty (0,1) is a legal Move, and both sides of the theorem's
equivalence hold: the unit is not engaged and Up is allowed for an
Attacker Program. -/
theorem move_into_empty_cell_rule_witness :
    gC5w.is_valid_move cC5w = (true, some ActionType.Move) ↔
      ((gC5w.is_engaged_in_combat cC5w.src = true →
          progA.type = UnitType.Tech ∨ progA.type = UnitType.Virus) ∧
        spec_direction_allowed gC5w.next_player progA.type Direction.Up = true) :=
  move_into_empty_cell_rule gC5w cC5w progA Direction.Up (by decide) (by decide)
    (by decide) (by decide) (by decide) (by decide) (by decide) (by decide)

/-! ### Claim C7: occupancy effects of Move / Attack / Repair -/

/-- C7 (counterexample): The claim states that a legal Attack leaves
the occupancy of every cell unchanged. In `gC7x` the Attacker's Virus at
(0,1) legally attacks the Defender's AI at (0,0); the 9-point damage kills
the AI, whose cell becomes empty — the occupancy of (0,0) changes from
occupied to empty. -/
theorem attack_occupancy_counterexample :
    gC7x.is_valid_move cC7x = (true, some ActionType.Attack) ∧
    gC7x.get (Coord.mk 0 0) =
      some { player := Player.Defender, type := UnitType.AI, health := 9 } ∧
    (gC7x.do_move_action cC7x ActionType.Attack).map
      (fun h => h.get (Coord.mk 0 0)) = some none := by
  refine ⟨by decide, by decide, by decide⟩

/-- C7 (amended): For every legal Move, the destination cell ends
holding the moved unit and the source cell ends empty, all other cells
unchanged. For every legal Repair, occupancy is unchanged and only the
target's health changes. For every legal Attack, every cell other than the
two combatants' is unchanged, and each combatant's cell either still holds
the same unit (same owner and type, only health changed) or has become
empty — the latter exactly when the combat damage reduced that unit's
health to 0. -/
theorem action_occupancy :
    ∀ (g : Game) (coords : CoordPair) (g' : Game), g.wf = true → g.health_inv = true →
      ((g.is_valid_move coords = (true, some ActionType.Move) →
        g.do_move_action coords ActionType.Move = some g' →
          g'.get coords.dst = g.get coords.src ∧ g'.get coords.src = none ∧
          ∀ c : Coord, c ≠ coords.src → c ≠ coords.dst → g'.get c = g.get c) ∧
      (g.is_valid_move coords = (true, some ActionType.Repair) →
        g.do_move_action coords ActionType.Repair = some g' →
          (∀ c : Coord, c ≠ coords.dst → g'.get c = g.get c) ∧
          (∃ u v : Unit, g.get coords.dst = some u ∧ g'.get coords.dst = some v ∧
            v.player = u.player ∧ v.type = u.type)) ∧
      (g.is_valid_move coords = (true, some ActionType.Attack) →
        g.do_move_action coords ActionType.Attack = some g' →
          (∀ c : Coord, c ≠ coords.src → c ≠ coords.dst → g'.get c = g.get c) ∧
          (∀ c : Coord, (c = coords.src ∨ c = coords.dst) →
            g'.get c = none ∨ ∃ u v : Unit, g.get c = some u ∧ g'.get c = some v ∧
              v.player = u.player ∧ v.type = u.type))) := by
  intro g coords g' hwf hinv
  refine ⟨?_, ?_, ?_⟩
  · intro hvm hda
    obtain ⟨hv1, hv2, ⟨su, hsrc, hpl⟩, hne, hdst⟩ := Game.is_valid_move_move_inv hvm
    unfold Game.do_move_action at hda
    injection hda with hg
    subst hg
    refine ⟨?_, ?_, ?_⟩
    · rw [Game.get_set_ne _ (Ne.symm hne), Game.get_set_self _ hwf hv2]
    · exact Game.get_set_self _ (Game.set_wf _ hwf) (by rw [Game.set_valid_eq]; exact hv1)
    · intro c hcs hcd
      rw [Game.get_set_ne _ hcs, Game.get_set_ne _ hcd]
  · intro hvm hda
    obtain ⟨hv1, hv2, hne, su, du, hsrc, hdst, hnz⟩ := Game.is_valid_move_repair_inv hvm
    unfold Game.do_move_action Game.perform_repair at hda
    rw [hsrc, hdst] at hda
    dsimp only at hda
    injection hda with hg
    subst hg
    have hok := Game.health_inv_get hinv coords.dst
    rw [hdst] at hok
    unfold cellOk at hok
    simp only [decide_eq_true_eq] at hok
    have hamt : 0 < su.repair_amount du := by
      unfold Game.is_repair_zero at hnz
      simp only [decide_eq_true_eq] at hnz
      omega
    refine ⟨?_, ?_⟩
    · intro c hcd
      exact Game.mod_health_get_ne _ hcd
    · have hh : 0 < (du.mod_health (su.repair_amount du)).health := by
        rw [Unit.mod_health_health]
        split_ifs <;> omega
      refine ⟨du, du.mod_health (su.repair_amount du), hdst, ?_,
        Unit.mod_health_player du _, Unit.mod_health_type du _⟩
      rw [Game.mod_health_get_self coords.dst (su.repair_amount du) hwf, hdst]
      show (if 0 < (du.mod_health (su.repair_amount du)).health
        then some (du.mod_health (su.repair_amount du)) else none) =
          some (du.mod_health (su.repair_amount du))
      rw [if_pos hh]
  · intro hvm hda
    obtain ⟨hv1, hv2, hne, su, du, hsrc, hdst⟩ := Game.is_valid_move_attack_inv hvm
    unfold Game.do_move_action Game.perform_fight at hda
    rw [hsrc, hdst] at hda
    dsimp only at hda
    injection hda with hg
    subst hg
    refine ⟨?_, ?_⟩
    · intro c hcs hcd
      rw [Game.mod_health_get_ne _ hcd, Game.mod_health_get_ne _ hcs]
    · intro c hc
      rcases hc with rfl | rfl
      · have hX : ((g.mod_health coords.src (-(du.damage_amount su))).mod_health coords.dst
            (-(su.damage_amount du))).get coords.src =
            (if 0 < (su.mod_health (-(du.damage_amount su))).health
              then some (su.mod_health (-(du.damage_amount su))) else none) := by
          rw [Game.mod_health_get_ne _ hne,
            Game.mod_health_get_self coords.src (-(du.damage_amount su)) hwf, hsrc]
        by_cases ha : 0 < (su.mod_health (-(du.damage_amount su))).health
        · exact Or.inr ⟨su, su.mod_health (-(du.damage_amount su)), hsrc,
            by rw [hX, if_pos ha], Unit.mod_health_player su _, Unit.mod_health_type su _⟩
        · exact Or.inl (by rw [hX, if_neg ha])
      · have h1 : (g.mod_health coords.src (-(du.damage_amount su))).get coords.dst =
            some du := by
          rw [Game.mod_health_get_ne _ (Ne.symm hne)]
          exact hdst
        have hX : ((g.mod_health coords.src (-(du.damage_amount su))).mod_health coords.dst
            (-(su.damage_amount du))).get coords.dst =
            (if 0 < (du.mod_health (-(su.damage_amount du))).health
              then some (du.mod_health (-(su.damage_amount du))) else none) := by
          rw [Game.mod_health_get_self coords.dst (-(su.damage_amount du))
            (Game.mod_health_wf _ _ hwf), h1]
        by_cases ha : 0 < (du.mod_health (-(su.damage_amount du))).health
        · exact Or.inr ⟨du, du.mod_health (-(su.damage_amount du)), hdst,
            by rw [hX, if_pos ha], Unit.mod_health_player du _, Unit.mod_health_type du _⟩
        · exact Or.inl (by rw [hX, if_neg ha])

/-- C7 (witness): The legal Move in `gC5w` relocates the Program: the
destination (0,1) ends holding it and the source (1,1) ends empty. -/
theorem action_occupancy_witness :
    gC5w.wf = true ∧ gC5w.health_inv = true ∧
    gC5w.is_valid_move cC5w = (true, some ActionType.Move) ∧
    gC5w.do_move_action cC5w ActionType.Move = some gC5wPost ∧
    gC5wPost.get cC5w.dst = gC5w.get cC5w.src ∧ gC5wPost.get cC5w.src = none := by
  refine ⟨by decide, by decide, by decide, by decide, ?_, ?_⟩
  · exact ((action_occupancy gC5w cC5w gC5wPost (by decide) (by decide)).1
      (by decide) (by decide)).1
  · exact ((action_occupancy gC5w cC5w gC5wPost (by decide) (by decide)).1
      (by decide) (by decide)).2.1

end AiWargame
